import Mathlib

set_option maxHeartbeats 1000000

/-!
Verification of the layer abstractions of a small feed-forward
neural-network framework (`layer.py`): fully-connected, activation,
flatten and 2-D convolution layers with their forward/backward passes.

Embedding conventions: tensors are total functions from `Nat` indices to
`ℚ`, with shapes carried separately; Python `for` loops that write or
accumulate into arrays become folds over explicit index lists; Python
`int(x / y)` on integer operands is division truncated toward zero
(`Int.tdiv`); a Python slice `a[p : -p]` over an axis of length `n` keeps
the indices `p ≤ i < stop` where `stop = 0` if `p = 0` and `stop = n - p`
otherwise.  The external `utils` module (zero padding and the Glorot
weight initializer) is not part of the repository snapshot; the padding
helper is modelled from the spec and the initializer is taken as an
arbitrary function parameter.
-/

/-- A 2-D tensor (matrix), row index first. -/
abbrev M2 : Type := Nat → Nat → ℚ

/-- A 3-D tensor (height, width, channels). -/
abbrev T3 : Type := Nat → Nat → Nat → ℚ

/-- A 4-D tensor (sample/kernel-row, height, width, channels/filters). -/
abbrev T4 : Type := Nat → Nat → Nat → Nat → ℚ

def zero3 : T3 := fun _ _ _ => 0

def zero4 : T4 := fun _ _ _ _ => 0

/-- Index quadruple of a 4-D tensor cell. -/
abbrev Idx4 : Type := Nat × Nat × Nat × Nat

/-- Index triple of a 3-D tensor cell. -/
abbrev Idx3 : Type := Nat × Nat × Nat

/-- Pointwise update of a single 4-D cell (one `Z[i, h, w, c] = v`
assignment). -/
def upd4 (Z : T4) (k : Idx4) (v : ℚ) : T4 :=
  fun i h w c => if (i, h, w, c) = k then v else Z i h w c

/-- Run a sequence of single-cell assignments `Z[k] = f k`, left to right
(the shallow embedding of a nest of `for` loops that writes each cell
once). -/
def writeAll (f : Idx4 → ℚ) : List Idx4 → T4 → T4
  | [], Z => Z
  | k :: ks, Z => writeAll f ks (upd4 Z k (f k))

/-- The index list of the four nested forward loops
`for i in range(ns): for h in range(nh): for w in range(nw): for c in
range(nc)`, in execution order. -/
def idxList4 (ns nh nw nc : Nat) : List Idx4 :=
  (List.range ns).flatMap fun i =>
    (List.range nh).flatMap fun h =>
      (List.range nw).flatMap fun w =>
        (List.range nc).map fun c => (i, h, w, c)

namespace utils

/-- Modelled from the spec: `utils.pad_inputs` (the `utils` module is not
part of the repository snapshot) returns a zero-padded copy of a 4-D
input, with the pad amounts applied on both sides of the two spatial axes
only, not the batch or channel axes. -/
def pad_inputs (X : T4) (H W : Nat) (ph pw : Int) : T4 :=
  fun i a b c =>
    if ph ≤ (a : Int) ∧ (a : Int) < (H : Int) + ph ∧
        pw ≤ (b : Int) ∧ (b : Int) < (W : Int) + pw then
      X i ((a : Int) - ph).toNat ((b : Int) - pw).toNat c
    else 0

end utils

namespace Conv_layer

/-- The slice `x[vs : vs + kh, hs : hs + kw, :]` of a 3-D array, as in
`Conv_layer.forward`'s window extraction (`layer.py` line 146). -/
def slice3 (x : T3) (vs hs : Nat) : T3 := fun a b ch => x (vs + a) (hs + b) ch

/-- `Conv_layer.conv_single_step` (`layer.py` lines 93-101): apply one
filter to one input window, `np.sum(np.multiply(input, W)) + float(b)`,
where the window and the filter both have shape `(kh, kw, nc)`. -/
def conv_single_step (input W : T3) (kh kw nc : Nat) (b : ℚ) : ℚ :=
  (∑ a in Finset.range kh, ∑ b2 in Finset.range kw, ∑ ch in Finset.range nc,
    input a b2 ch * W a b2 ch) + b

/-- The padding and output-size arithmetic of `Conv_layer.forward`
(`layer.py` lines 119-128), returning `(pad_h, pad_w, n_H, n_W)`.
Python's `int(x / y)` on integers is division truncated toward zero. -/
def out_dims (padding : String) (stride kernel_h kernel_w prev_height prev_width : Nat) :
    Int × Int × Int × Int :=
  if padding = "same" then
    (Int.tdiv (((prev_height : Int) - 1) * (stride : Int) + (kernel_h : Int) - (prev_height : Int)) 2,
     Int.tdiv (((prev_width : Int) - 1) * (stride : Int) + (kernel_w : Int) - (prev_width : Int)) 2,
     (prev_height : Int), (prev_width : Int))
  else
    (0, 0,
     Int.tdiv ((prev_height : Int) - (kernel_h : Int)) (stride : Int) + 1,
     Int.tdiv ((prev_width : Int) - (kernel_w : Int)) (stride : Int) + 1)

end Conv_layer

/-- The mutable state of a `Conv_layer` instance: the constructor fields
(`layer.py` lines 85-89) plus the attributes assigned by `forward`
(`W`, `b`, `pad_h`, `pad_w`, `A` and the cached input shape). -/
structure ConvState where
  filters : Nat
  kernel_h : Nat
  kernel_w : Nat
  padding : String
  stride : Nat
  W : T4
  b : Nat → ℚ
  pad_h : Int
  pad_w : Int
  A : T4
  samples : Nat
  prev_height : Nat
  prev_width : Nat
  prev_channels : Nat

namespace Conv_layer

/-- `Conv_layer.forward` (`layer.py` lines 104-151).  The external
`utils.glorot_uniform` initializer is passed in as the function
`glorot_uniform`, mapping the 4-D weight shape
`(kernel_h, kernel_w, prev_channels, filters)` to a `(W, b)` pair.
Returns the updated instance state and the output tensor `Z`. -/
def forward (glorot_uniform : Nat → Nat → Nat → Nat → T4 × (Nat → ℚ))
    (s : ConvState) (X : T4) (samples prev_height prev_width prev_channels : Nat) :
    ConvState × T4 :=
  let Wb := glorot_uniform s.kernel_h s.kernel_w prev_channels s.filters
  let d := out_dims s.padding s.stride s.kernel_h s.kernel_w prev_height prev_width
  let pad_h := d.1
  let pad_w := d.2.1
  let n_H := d.2.2.1
  let n_W := d.2.2.2
  let X_pad := utils.pad_inputs X prev_height prev_width pad_h pad_w
  let Z := writeAll
    (fun k => conv_single_step
      (slice3 (X_pad k.1) (s.stride * k.2.1) (s.stride * k.2.2.1))
      (fun a b2 ch => Wb.1 a b2 ch k.2.2.2)
      s.kernel_h s.kernel_w prev_channels (Wb.2 k.2.2.2))
    (idxList4 samples n_H.toNat n_W.toNat s.filters) zero4
  ({ s with
      W := Wb.1, b := Wb.2, pad_h := pad_h, pad_w := pad_w, A := X,
      samples := samples, prev_height := prev_height,
      prev_width := prev_width, prev_channels := prev_channels }, Z)

end Conv_layer

/-- A concrete single-sample, single-channel 4×4 test input, cell
`(a, b)` holding `4a + b + 1`. -/
def c1X : T4 := fun _ a b _ => ((4 * a + b + 1 : Nat) : ℚ)

/-- A concrete initializer producing an all-ones kernel and zero bias. -/
def c1glorot : Nat → Nat → Nat → Nat → T4 × (Nat → ℚ) :=
  fun _ _ _ _ => (fun _ _ _ _ => 1, fun _ => 0)

/-- A freshly constructed `Conv_layer(filters=1, kernel_shape=(2,2),
padding='valid', stride=1)` (attributes later assigned by `forward`
still hold placeholder values). -/
def c1state : ConvState :=
  { filters := 1, kernel_h := 2, kernel_w := 2, padding := "valid", stride := 1,
    W := zero4, b := fun _ => 0, pad_h := 0, pad_w := 0, A := zero4,
    samples := 0, prev_height := 0, prev_width := 0, prev_channels := 0 }

/-- A Python runtime fault surfaced by a layer method. -/
inductive PyErr where
  | attributeError (cls attr : String)
deriving DecidableEq

/-- The methods defined on the base class `Layer` (`layer.py` lines
5-23). -/
def Layer.methods : List String := ["__init__", "forward", "backward"]

namespace Conv_layer

/-- The methods defined on `Conv_layer` (`layer.py` lines 84-198). -/
def methods : List String := ["__init__", "conv_single_step", "forward", "backward"]

/-- The instance attributes a `Conv_layer` object can have acquired from
`__init__`, `forward` and the start of `backward` before the
`self.init_cache()` call on line 167. -/
def instanceAttrs : List String :=
  ["stride", "kernel_shape", "padding", "filters", "W", "b", "pad_h", "pad_w", "A",
   "dW", "db", "grads", "input", "output"]

/-- Attribute lookup on a `Conv_layer` object: instance attributes, then
the class's methods, then the base class `Layer`'s methods. -/
def hasattr (attr : String) : Bool :=
  instanceAttrs.contains attr || methods.contains attr || Layer.methods.contains attr

end Conv_layer

/-- The index list of the three nested backward loops
`for h in range(prev_height): for w in range(prev_width): for c in
range(filters)`, in execution order (`layer.py` lines 179-187). -/
def idxList3 (nh nw nc : Nat) : List Idx3 :=
  (List.range nh).flatMap fun h =>
    (List.range nw).flatMap fun w =>
      (List.range nc).map fun c => (h, w, c)

namespace Conv_layer

/-- The running accumulators of the inner three backward loops: the
per-sample padded input gradient `da_pad` and the filter/bias gradients
`dW`, `db`. -/
structure BwdAcc where
  da_pad : T3
  dW : T4
  db : Nat → ℚ

/-- One iteration's addition into `da_pad`
(`da_pad[vert_start:vert_end, horiz_start:horiz_end, :] +=
W[:, :, :, c] * dY[i, h, w, c]`, `layer.py` line 190), as the pointwise
amount added at cell `(a, b, ch)` by loop index `k = (h, w, c)`. -/
def da_inc (Wf : T4) (dY : T4) (stride kernel_h kernel_w i : Nat) (k : Idx3) : T3 :=
  fun a b ch =>
    if stride * k.1 ≤ a ∧ a < stride * k.1 + kernel_h ∧
        stride * k.2.1 ≤ b ∧ b < stride * k.2.1 + kernel_w then
      Wf (a - stride * k.1) (b - stride * k.2.1) ch k.2.2 * dY i k.1 k.2.1 k.2.2
    else 0

/-- One iteration's addition into `dW`
(`self.dW[:, :, :, c] += a_slice * dY[i, h, w, c]`, `layer.py` line
191). -/
def dW_inc (a_pad : T3) (dY : T4) (stride i : Nat) (k : Idx3) : T4 :=
  fun a b ch f =>
    if f = k.2.2 then
      a_pad (stride * k.1 + a) (stride * k.2.1 + b) ch * dY i k.1 k.2.1 k.2.2
    else 0

/-- One iteration's addition into `db`
(`self.db[:, :, :, c] += dY[i, h, w, c]`, `layer.py` line 192). -/
def db_inc (dY : T4) (i : Nat) (k : Idx3) : Nat → ℚ :=
  fun f => if f = k.2.2 then dY i k.1 k.2.1 k.2.2 else 0

/-- The body of the three nested accumulation loops of
`Conv_layer.backward` (`layer.py` lines 179-192) for one loop index
`k = (h, w, c)` of sample `i`, with `Wf` the current value of `self.W`
and `a_pad` the padded sample. -/
def bwdStep (Wf : T4) (a_pad : T3) (dY : T4) (stride kernel_h kernel_w i : Nat)
    (acc : BwdAcc) (k : Idx3) : BwdAcc :=
  { da_pad := fun a b ch =>
      acc.da_pad a b ch + da_inc Wf dY stride kernel_h kernel_w i k a b ch,
    dW := fun a b ch f => acc.dW a b ch f + dW_inc a_pad dY stride i k a b ch f,
    db := fun f => acc.db f + db_inc dY i k f }

end Conv_layer

/-- The state threaded through `Conv_layer.backward`'s per-sample loop:
the accumulating gradients `dW`, `db`, the (mutated in place) parameters
`W`, `b`, and the assembled input gradient `dA`. -/
structure BwdState where
  dW : T4
  db : Nat → ℚ
  W : T4
  b : Nat → ℚ
  dA : T4

namespace Conv_layer

/-- The per-sample loop body of `Conv_layer.backward` (`layer.py` lines
175-196): run the three accumulation loops over every original spatial
position and filter, write the cropped `da_pad` into row `i` of `dA`
(`dA[i, :, :, :] = da_pad[pad_h:-pad_h, pad_w:-pad_w, :]`, the element at
`(a, b, ch)` of the crop being `da_pad[pad_h + a, pad_w + b, ch]`), and
then update `W -= learning_rate * dW` and `b -= learning_rate * db`
inside this per-sample loop. -/
def sampleStep (A_pad dY : T4)
    (stride kernel_h kernel_w filters prev_height prev_width : Nat)
    (pad_h pad_w : Int) (learning_rate : ℚ) (st : BwdState) (i : Nat) : BwdState :=
  let a_pad := A_pad i
  let inner := (idxList3 prev_height prev_width filters).foldl
    (bwdStep st.W a_pad dY stride kernel_h kernel_w i)
    { da_pad := zero3, dW := st.dW, db := st.db }
  { dW := inner.dW, db := inner.db,
    W := fun a b ch f => st.W a b ch f - learning_rate * inner.dW a b ch f,
    b := fun f => st.b f - learning_rate * inner.db f,
    dA := fun j a b ch =>
      if j = i then inner.da_pad (pad_h + (a : Int)).toNat (pad_w + (b : Int)).toNat ch
      else st.dA j a b ch }

end Conv_layer

/-- The upper index of the Python slice `x[p : -p]` over an axis of
length `n`: the stop `-p` denotes `n - p` when `p ≠ 0`, but `-0` is `0`,
so a zero pad produces an empty slice. -/
def sliceStop (p n : Int) : Int := if p = 0 then 0 else n - p

/-- What a completed `Conv_layer.backward` call produces: the updated
parameters, the stored gradients, the batch input gradient `dA`, and the
spatial extent `(cropH, cropW)` of the crop
`da_pad[pad_h:-pad_h, pad_w:-pad_w, :]` assigned into each `dA[i]`. -/
structure BwdResult where
  W : T4
  b : Nat → ℚ
  dW : T4
  db : Nat → ℚ
  dA : T4
  cropH : Nat
  cropW : Nat

namespace Conv_layer

/-- The part of `Conv_layer.backward` after the `self.init_cache()` call
(`layer.py` lines 169-198): zero-initialize `dW`, `db` and the padded
input gradients, run the per-sample loop, and return the result.  (This
code is unreachable in the source because line 167 raises first; see
`Conv_layer.backward` below.) -/
def backward_body (s : ConvState) (dY : T4) (learning_rate : ℚ) : BwdResult :=
  let A_pad := utils.pad_inputs s.A s.prev_height s.prev_width s.pad_h s.pad_w
  let fin := (List.range s.samples).foldl
    (sampleStep A_pad dY s.stride s.kernel_h s.kernel_w s.filters s.prev_height s.prev_width
      s.pad_h s.pad_w learning_rate)
    { dW := zero4, db := fun _ => 0, W := s.W, b := s.b, dA := zero4 }
  { W := fin.W, b := fin.b, dW := fin.dW, db := fin.db, dA := fin.dA,
    cropH := (sliceStop s.pad_h ((s.prev_height : Int) + 2 * s.pad_h) - s.pad_h).toNat,
    cropW := (sliceStop s.pad_w ((s.prev_width : Int) + 2 * s.pad_w) - s.pad_w).toNat }

/-- `Conv_layer.backward` (`layer.py` lines 153-198): its first statement
touching the instance, `self.grads = self.init_cache()` (line 167), looks
up the attribute `init_cache`, which exists neither on the instance nor
on `Conv_layer` nor on the base class `Layer`, so the call raises
`AttributeError` before any gradient is computed or any parameter
updated. -/
def backward (s : ConvState) (dY : T4) (learning_rate : ℚ) : Except PyErr BwdResult :=
  if hasattr "init_cache" then .ok (backward_body s dY learning_rate)
  else .error (.attributeError "Conv_layer" "init_cache")

/-- The total amount sample `i`'s three accumulation loops add to `dW`:
one `dW_inc` term for every original spatial position `(h, w)` and every
filter `c`. -/
def gW (A_pad dY : T4) (stride prev_height prev_width filters i : Nat) : T4 :=
  fun a b ch f =>
    ∑ h in Finset.range prev_height, ∑ w in Finset.range prev_width,
      ∑ c in Finset.range filters, dW_inc (A_pad i) dY stride i (h, w, c) a b ch f

/-- The total amount sample `i`'s loops add to `db`. -/
def gb (dY : T4) (prev_height prev_width filters i : Nat) : Nat → ℚ :=
  fun f =>
    ∑ h in Finset.range prev_height, ∑ w in Finset.range prev_width,
      ∑ c in Finset.range filters, db_inc dY i (h, w, c) f

/-- The per-sample padded input gradient `da_pad` accumulated for sample
`i` when the current weights are `Wf`: one windowed `da_inc` term for
every original spatial position and filter. -/
def gDa (Wf dY : T4) (stride kernel_h kernel_w prev_height prev_width filters i : Nat) : T3 :=
  fun a b ch =>
    ∑ h in Finset.range prev_height, ∑ w in Finset.range prev_width,
      ∑ c in Finset.range filters,
        da_inc Wf dY stride kernel_h kernel_w i (h, w, c) a b ch

/-- The value the in-loop updates leave in `W` after the first `j`
samples of one backward call: `j` subtractions, the `k`-th using the
gradient accumulated over samples `0..k`. -/
def WAfter (W0 : T4) (learning_rate : ℚ) (A_pad dY : T4)
    (stride prev_height prev_width filters j : Nat) : T4 :=
  fun a b ch f => W0 a b ch f -
    learning_rate * ∑ k in Finset.range j, ∑ t in Finset.range (k + 1),
      gW A_pad dY stride prev_height prev_width filters t a b ch f

/-- The value the in-loop updates leave in `b` after the first `j`
samples of one backward call. -/
def bAfter (b0 : Nat → ℚ) (learning_rate : ℚ) (dY : T4)
    (prev_height prev_width filters j : Nat) : Nat → ℚ :=
  fun f => b0 f -
    learning_rate * ∑ k in Finset.range j, ∑ t in Finset.range (k + 1),
      gb dY prev_height prev_width filters t f

/-- The whole per-sample loop of `Conv_layer.backward` over the first `m`
samples, from freshly zeroed gradients (`layer.py` lines 169-196). -/
def backward_fold (A_pad dY : T4)
    (stride kernel_h kernel_w filters prev_height prev_width : Nat)
    (pad_h pad_w : Int) (learning_rate : ℚ) (W0 : T4) (b0 : Nat → ℚ) (m : Nat) : BwdState :=
  (List.range m).foldl
    (sampleStep A_pad dY stride kernel_h kernel_w filters prev_height prev_width
      pad_h pad_w learning_rate)
    { dW := zero4, db := fun _ => 0, W := W0, b := b0, dA := zero4 }

end Conv_layer

/-- An all-ones upstream gradient. -/
def c5dY : T4 := fun _ _ _ _ => 1

/-- A one-sample `Conv_layer` state after a 1×1-kernel `'valid'` forward
pass on a 1×1×1×1 input of value 1. -/
def c5state : ConvState :=
  { filters := 1, kernel_h := 1, kernel_w := 1, padding := "valid", stride := 1,
    W := zero4, b := fun _ => 0, pad_h := 0, pad_w := 0, A := fun _ _ _ _ => 1,
    samples := 1, prev_height := 1, prev_width := 1, prev_channels := 1 }

/-- A two-sample `Conv_layer` state: 1×1 kernel, `'valid'` (pad 0),
1×1×1 spatial input per sample, sample `i` holding the value `i + 1`,
zero initial weights. -/
def c6state : ConvState :=
  { filters := 1, kernel_h := 1, kernel_w := 1, padding := "valid", stride := 1,
    W := zero4, b := fun _ => 0, pad_h := 0, pad_w := 0,
    A := fun i _ _ _ => (i : ℚ) + 1,
    samples := 2, prev_height := 1, prev_width := 1, prev_channels := 1 }

/-- An all-ones upstream gradient for the two-sample instance. -/
def c6dY : T4 := fun _ _ _ _ => 1

/-- An upstream gradient matching the 1×3×3×1 `'valid'` forward output. -/
def c4dY : T4 := fun _ _ _ _ => 2

/-- The mutable state of an `FC` (fully connected) layer instance
(`layer.py` lines 26-49): the constructor sizes, the parameters, and the
cached input and output. -/
structure FCState where
  input_size : Nat
  output_size : Nat
  weights : M2
  bias : Nat → ℚ
  input : M2
  output : M2

namespace FC

/-- `np.dot` on 2-D arrays: matrix product with inner dimension `n`. -/
def dot (A B : M2) (n : Nat) : M2 := fun i j => ∑ k in Finset.range n, A i k * B k j

/-- Matrix transpose (numpy's `.T`). -/
def transpose (A : M2) : M2 := fun i j => A j i

/-- `FC.forward` (`layer.py` lines 34-37): caches the input and returns
`np.dot(input, weights) + bias`, the bias row broadcast over the
batch. -/
def forward (s : FCState) (X : M2) : FCState × M2 :=
  let out : M2 := fun i j => dot X s.weights s.input_size i j + s.bias j
  ({ s with input := X, output := out }, out)

/-- `FC.backward` (`layer.py` lines 40-49): `m = len(dY)` (the number of
rows of `dY`) is passed explicitly since shapes travel separately; `grad
= np.dot(dY, weights.T)`, `dW = np.dot(input.T, dY)/m`,
`dB = np.squeeze(np.sum(dY, axis=0, keepdims=True)).reshape(1, cols)/m`
(the squeeze/reshape pair only moves shapes, each entry is the column
sum over the batch), then the in-place updates, returning `grad`. -/
def backward (s : FCState) (dY : M2) (m : Nat) (learning_rate : ℚ) : FCState × M2 :=
  let grad := dot dY (transpose s.weights) s.output_size
  let dW : M2 := fun j k => dot (transpose s.input) dY m j k / m
  let dB : Nat → ℚ := fun j => (∑ i in Finset.range m, dY i j) / m
  ({ s with
      weights := fun j k => s.weights j k - learning_rate * dW j k,
      bias := fun j => s.bias j - learning_rate * dB j }, grad)

end FC

/-- Each row repeated `r` times consecutively: row `i` of the result is
row `i / r` of `X` (so a batch of `m` rows becomes one of `m * r`
rows). -/
def dupRows (X : M2) (r : Nat) : M2 := fun i j => X (i / r) j

/-- A concrete `FC(2, 1)` state with all-ones weights and zero bias. -/
def c9state : FCState :=
  { input_size := 2, output_size := 1, weights := fun _ _ => 1, bias := fun _ => 0,
    input := fun _ _ => 0, output := fun _ _ => 0 }

/-- A concrete one-row input, entry `j` holding `j + 1`. -/
def c9X : M2 := fun _ j => (j : ℚ) + 1

/-- A concrete all-ones upstream gradient. -/
def c9dY : M2 := fun _ _ => 1

/-- An n-dimensional numpy array: a dynamic shape plus the row-major flat
data that `reshape` leaves untouched. -/
structure NDTensor where
  shape : List Nat
  data : Nat → ℚ

/-- `np.reshape` to a new shape: a pure view — the row-major flat data is
unchanged, only the shape changes. -/
def reshape (X : NDTensor) (s : List Nat) : NDTensor := { shape := s, data := X.data }

/-- The mutable state of a `Flatten` layer instance: the cached input. -/
structure FlattenState where
  input : NDTensor

namespace Flatten

/-- `Flatten.forward` (`layer.py` lines 69-72): caches `X`, reads
`samples = X.shape[0]` and returns `X.reshape(samples, -1)`, where the
`-1` resolves to the product of the remaining dimensions. -/
def forward (st : FlattenState) (X : NDTensor) : FlattenState × NDTensor :=
  ({ input := X }, reshape X [X.shape.headD 0, X.shape.tail.prod])

/-- `Flatten.backward` (`layer.py` lines 74-81): returns `dY` reshaped to
the cached input's shape; `learning_rate` is unused (no parameters). -/
def backward (st : FlattenState) (dY : NDTensor) (learning_rate : ℚ) : NDTensor :=
  reshape dY st.input.shape

end Flatten

/-- A concrete 2×3×4 input with cell `i` of the flat data holding `i`. -/
def c10X : NDTensor := { shape := [2, 3, 4], data := fun i => (i : ℚ) }

/-- A `Flatten` instance state before the call. -/
def c10st : FlattenState := { input := { shape := [], data := fun _ => 0 } }

theorem writeAll_apply (f : Idx4 → ℚ) (ks : List Idx4) (Z : T4) (i h w c : Nat) :
    writeAll f ks Z i h w c =
      if (i, h, w, c) ∈ ks then f (i, h, w, c) else Z i h w c := by
  induction ks generalizing Z with
  | nil => simp [writeAll]
  | cons k ks ih =>
    rw [writeAll, ih]
    by_cases hk : (i, h, w, c) ∈ ks
    · simp [hk]
    · by_cases he : (i, h, w, c) = k
      · simp [hk, he, upd4]
      · simp [hk, he, upd4]

theorem mem_idxList4 (ns nh nw nc i h w c : Nat) :
    (i, h, w, c) ∈ idxList4 ns nh nw nc ↔ i < ns ∧ h < nh ∧ w < nw ∧ c < nc := by
  simp only [idxList4, List.mem_flatMap, List.mem_map, List.mem_range, Prod.mk.injEq]
  constructor
  · rintro ⟨i', hi, h', hh, w', hw, c', hc, rfl, rfl, rfl, rfl⟩
    exact ⟨hi, hh, hw, hc⟩
  · rintro ⟨hi, hh, hw, hc⟩
    exact ⟨i, hi, h, hh, w, hw, c, hc, rfl, rfl, rfl, rfl⟩

/-- Claim C1: for every input `X` of shape `(samples, H, W, C)`,
`Conv_layer.forward` returns an output in which, for every sample `i`,
every output spatial position `(h, w)` obtained by stepping a
kernel-shaped window over the padded input by `stride`, and every filter
`c`, the cell `(i, h, w, c)` equals the elementwise product of that
padded-input window with filter `c`, summed to a scalar, plus bias `c`
(dense cross-correlation, no kernel flip). -/
theorem C1_conv_forward_cell
    (glorot_uniform : Nat → Nat → Nat → Nat → T4 × (Nat → ℚ))
    (s : ConvState) (X : T4) (samples prev_height prev_width prev_channels i h w c : Nat)
    (hi : i < samples)
    (hh : h < ((Conv_layer.out_dims s.padding s.stride s.kernel_h s.kernel_w
        prev_height prev_width).2.2.1).toNat)
    (hw : w < ((Conv_layer.out_dims s.padding s.stride s.kernel_h s.kernel_w
        prev_height prev_width).2.2.2).toNat)
    (hc : c < s.filters) :
    (Conv_layer.forward glorot_uniform s X samples prev_height prev_width prev_channels).2 i h w c =
      Conv_layer.conv_single_step
        (Conv_layer.slice3
          (utils.pad_inputs X prev_height prev_width
            (Conv_layer.out_dims s.padding s.stride s.kernel_h s.kernel_w
              prev_height prev_width).1
            (Conv_layer.out_dims s.padding s.stride s.kernel_h s.kernel_w
              prev_height prev_width).2.1 i)
          (s.stride * h) (s.stride * w))
        (fun a b2 ch => (glorot_uniform s.kernel_h s.kernel_w prev_channels s.filters).1 a b2 ch c)
        s.kernel_h s.kernel_w prev_channels
        ((glorot_uniform s.kernel_h s.kernel_w prev_channels s.filters).2 c) := by
  show writeAll _ _ zero4 i h w c = _
  rw [writeAll_apply]
  rw [if_pos ((mem_idxList4 _ _ _ _ _ _ _ _).2 ⟨hi, hh, hw, hc⟩)]

/-- Witness for C1 at the spec's concrete test (4×4 input, 2×2 all-ones
kernel, zero bias, stride 1, `'valid'`): the cell at `(0, 1, 2, 0)` is
the sum of the 2×2 window at rows 1-2, columns 2-3, namely
`7 + 8 + 11 + 12 = 38`. -/
theorem C1_conv_forward_cell_witness :
    (0 : Nat) < 1 ∧
    (Conv_layer.forward c1glorot c1state c1X 1 4 4 1).2 0 1 2 0 =
      Conv_layer.conv_single_step
        (Conv_layer.slice3
          (utils.pad_inputs c1X 4 4
            (Conv_layer.out_dims c1state.padding c1state.stride c1state.kernel_h
              c1state.kernel_w 4 4).1
            (Conv_layer.out_dims c1state.padding c1state.stride c1state.kernel_h
              c1state.kernel_w 4 4).2.1 0)
          (c1state.stride * 1) (c1state.stride * 2))
        (fun a b2 ch => (c1glorot c1state.kernel_h c1state.kernel_w 1 c1state.filters).1 a b2 ch 0)
        c1state.kernel_h c1state.kernel_w 1
        ((c1glorot c1state.kernel_h c1state.kernel_w 1 c1state.filters).2 0) ∧
    (Conv_layer.forward c1glorot c1state c1X 1 4 4 1).2 0 1 2 0 = 38 :=
  ⟨by decide,
   C1_conv_forward_cell c1glorot c1state c1X 1 4 4 1 0 1 2 0
     (by decide) (by decide) (by decide) (by decide),
   by
    rw [C1_conv_forward_cell c1glorot c1state c1X 1 4 4 1 0 1 2 0
      (by decide) (by decide) (by decide) (by decide)]
    have hd : Conv_layer.out_dims "valid" 1 2 2 4 4 = (0, 0, 3, 3) := by decide
    norm_num [Conv_layer.conv_single_step, Conv_layer.slice3, utils.pad_inputs,
      c1X, c1glorot, c1state, hd, Finset.sum_range_succ, Int.toNat]⟩

/-- Counterexample to claim C2 as stated: the claim's `'valid'` output
dimension `floor((in_dim - kernel_dim)/stride) + 1` disagrees with the
code for input dimension 2, kernel dimension 3, stride 2, where Python's
`int((2 - 3) / 2) + 1` truncates `-0.5` toward zero and yields `1`, while
the floor form yields `0`. -/
theorem C2_output_dims_counterexample :
    (Conv_layer.out_dims "valid" 2 3 3 2 2).2.2.1 = 1 ∧
    Int.fdiv ((2 : Int) - 3) 2 + 1 = 0 ∧
    (Conv_layer.out_dims "valid" 2 3 3 2 2).2.2.1 ≠ Int.fdiv ((2 : Int) - 3) 2 + 1 := by
  refine ⟨by decide, by decide, by decide⟩

/-- Claim C2 (amended): per spatial axis, `'valid'` padding gives pad 0
and output dimension `(in_dim - kernel_dim)/stride + 1` with the division
truncated toward zero (which equals the claimed floor form whenever
`kernel_dim ≤ in_dim`), and `'same'` padding gives output dimension
`in_dim` with pad `((in_dim - 1)*stride + kernel_dim - in_dim) / 2`
truncated; in particular input 5×5, kernel 3×3, stride 1 gives output 3×3
under `'valid'` and 5×5 (pad 1) under `'same'`. -/
theorem C2_output_dims (padding : String) (stride kernel_h kernel_w prev_height prev_width : Nat)
    (hs : 0 < stride) :
    (padding ≠ "same" →
      Conv_layer.out_dims padding stride kernel_h kernel_w prev_height prev_width =
        (0, 0, Int.tdiv ((prev_height : Int) - (kernel_h : Int)) (stride : Int) + 1,
         Int.tdiv ((prev_width : Int) - (kernel_w : Int)) (stride : Int) + 1)) ∧
    (padding ≠ "same" → kernel_h ≤ prev_height →
      (Conv_layer.out_dims padding stride kernel_h kernel_w prev_height prev_width).2.2.1 =
        Int.fdiv ((prev_height : Int) - (kernel_h : Int)) (stride : Int) + 1) ∧
    (padding ≠ "same" → kernel_w ≤ prev_width →
      (Conv_layer.out_dims padding stride kernel_h kernel_w prev_height prev_width).2.2.2 =
        Int.fdiv ((prev_width : Int) - (kernel_w : Int)) (stride : Int) + 1) ∧
    (padding = "same" →
      Conv_layer.out_dims padding stride kernel_h kernel_w prev_height prev_width =
        (Int.tdiv (((prev_height : Int) - 1) * (stride : Int) + (kernel_h : Int) - (prev_height : Int)) 2,
         Int.tdiv (((prev_width : Int) - 1) * (stride : Int) + (kernel_w : Int) - (prev_width : Int)) 2,
         (prev_height : Int), (prev_width : Int))) ∧
    Conv_layer.out_dims "valid" 1 3 3 5 5 = (0, 0, 3, 3) ∧
    Conv_layer.out_dims "same" 1 3 3 5 5 = (1, 1, 5, 5) := by
  refine ⟨fun hp => ?_, fun hp hk => ?_, fun hp hk => ?_, fun hp => ?_, by decide, by decide⟩
  · simp [Conv_layer.out_dims, hp]
  · have h0 : (0 : Int) ≤ (prev_height : Int) - (kernel_h : Int) := by
      omega
    have hb : (0 : Int) ≤ (stride : Int) := by positivity
    simp [Conv_layer.out_dims, hp, Int.tdiv_eq_ediv h0 hb, Int.fdiv_eq_ediv _ hb]
  · have h0 : (0 : Int) ≤ (prev_width : Int) - (kernel_w : Int) := by
      omega
    have hb : (0 : Int) ≤ (stride : Int) := by positivity
    simp [Conv_layer.out_dims, hp, Int.tdiv_eq_ediv h0 hb, Int.fdiv_eq_ediv _ hb]
  · simp [Conv_layer.out_dims, hp]

/-- Witness for C2 at stride 1, kernel 3×3, input 5×5 under `'valid'`. -/
theorem C2_output_dims_witness :
    (0 : Nat) < 1 ∧
    Conv_layer.out_dims "valid" 1 3 3 5 5 =
      (0, 0, Int.tdiv ((5 : Int) - (3 : Int)) ((1 : Nat) : Int) + 1,
       Int.tdiv ((5 : Int) - (3 : Int)) ((1 : Nat) : Int) + 1) :=
  ⟨by decide, (C2_output_dims "valid" 1 3 3 5 5 (by decide)).1 (by decide)⟩

/-- Claim C7: on every call to `Conv_layer.forward` the filter weights
`W` and bias `b` are re-initialized from the injected (Glorot-uniform)
initializer keyed to the current input's channel count, discarding
whatever values `W` and `b` held before the call: the whole result of
`forward` is identical for any two prior values of `W` and `b`, and the
post-call weights and bias are exactly the initializer's output for the
shape `(kernel_h, kernel_w, prev_channels, filters)`. -/
theorem C7_forward_resets_weights
    (glorot_uniform : Nat → Nat → Nat → Nat → T4 × (Nat → ℚ))
    (s : ConvState) (W0 W1 : T4) (b0 b1 : Nat → ℚ) (X : T4)
    (samples prev_height prev_width prev_channels : Nat) :
    Conv_layer.forward glorot_uniform { s with W := W0, b := b0 } X
        samples prev_height prev_width prev_channels =
      Conv_layer.forward glorot_uniform { s with W := W1, b := b1 } X
        samples prev_height prev_width prev_channels ∧
    (Conv_layer.forward glorot_uniform { s with W := W0, b := b0 } X
        samples prev_height prev_width prev_channels).1.W =
      (glorot_uniform s.kernel_h s.kernel_w prev_channels s.filters).1 ∧
    (Conv_layer.forward glorot_uniform { s with W := W0, b := b0 } X
        samples prev_height prev_width prev_channels).1.b =
      (glorot_uniform s.kernel_h s.kernel_w prev_channels s.filters).2 :=
  ⟨rfl, rfl, rfl⟩

theorem sum_map_range (n : Nat) (g : Nat → ℚ) :
    ((List.range n).map g).sum = ∑ x in Finset.range n, g x := by
  induction n with
  | zero => simp
  | succ n ih => rw [List.range_succ]; simp [ih, Finset.sum_range_succ]

theorem sum_map_flatMap {α β : Type} (l : List α) (f : α → List β) (g : β → ℚ) :
    ((l.flatMap f).map g).sum = (l.map fun a => ((f a).map g).sum).sum := by
  induction l with
  | nil => simp
  | cons a l ih => simp [ih]

theorem sum_map_idxList3 (nh nw nc : Nat) (g : Idx3 → ℚ) :
    ((idxList3 nh nw nc).map g).sum =
      ∑ h in Finset.range nh, ∑ w in Finset.range nw, ∑ c in Finset.range nc, g (h, w, c) := by
  simp only [idxList3, sum_map_flatMap, List.map_map, sum_map_range, Function.comp]

namespace Conv_layer

theorem bwdFold_spec (Wf : T4) (a_pad : T3) (dY : T4) (stride kernel_h kernel_w i : Nat)
    (l : List Idx3) (acc : BwdAcc) :
    (∀ a b ch, (l.foldl (bwdStep Wf a_pad dY stride kernel_h kernel_w i) acc).da_pad a b ch =
      acc.da_pad a b ch +
        (l.map fun k => da_inc Wf dY stride kernel_h kernel_w i k a b ch).sum) ∧
    (∀ a b ch f, (l.foldl (bwdStep Wf a_pad dY stride kernel_h kernel_w i) acc).dW a b ch f =
      acc.dW a b ch f + (l.map fun k => dW_inc a_pad dY stride i k a b ch f).sum) ∧
    (∀ f, (l.foldl (bwdStep Wf a_pad dY stride kernel_h kernel_w i) acc).db f =
      acc.db f + (l.map fun k => db_inc dY i k f).sum) := by
  induction l generalizing acc with
  | nil => refine ⟨fun a b ch => ?_, fun a b ch f => ?_, fun f => ?_⟩ <;> simp
  | cons k l ih =>
    refine ⟨fun a b ch => ?_, fun a b ch f => ?_, fun f => ?_⟩
    · rw [List.foldl_cons, (ih _).1]
      simp [bwdStep, add_assoc]
    · rw [List.foldl_cons, (ih _).2.1]
      simp [bwdStep, add_assoc]
    · rw [List.foldl_cons, (ih _).2.2]
      simp [bwdStep, add_assoc]

end Conv_layer

/-- Claim C3: for every `Conv_layer` instance state (in particular any
state produced by `forward`), every call to
`backward(dY, learning_rate)` raises an attribute-lookup error before
computing any gradient or updating any parameter, because `backward`
invokes `self.init_cache()` and no attribute named `init_cache` is
defined on the instance, on `Conv_layer`, or on the base class
`Layer`. -/
theorem C3_backward_attribute_error (s : ConvState) (dY : T4) (learning_rate : ℚ) :
    Conv_layer.backward s dY learning_rate =
      Except.error (PyErr.attributeError "Conv_layer" "init_cache") := rfl

namespace Conv_layer

theorem innerFold_spec (Wf : T4) (a_pad : T3) (dY : T4)
    (stride kernel_h kernel_w i prev_height prev_width filters : Nat)
    (dW0 : T4) (db0 : Nat → ℚ) :
    ((idxList3 prev_height prev_width filters).foldl
        (bwdStep Wf a_pad dY stride kernel_h kernel_w i)
        { da_pad := zero3, dW := dW0, db := db0 }).da_pad =
      (fun a b ch =>
        ∑ h in Finset.range prev_height, ∑ w in Finset.range prev_width,
          ∑ c in Finset.range filters,
            da_inc Wf dY stride kernel_h kernel_w i (h, w, c) a b ch) ∧
    ((idxList3 prev_height prev_width filters).foldl
        (bwdStep Wf a_pad dY stride kernel_h kernel_w i)
        { da_pad := zero3, dW := dW0, db := db0 }).dW =
      (fun a b ch f => dW0 a b ch f +
        ∑ h in Finset.range prev_height, ∑ w in Finset.range prev_width,
          ∑ c in Finset.range filters, dW_inc a_pad dY stride i (h, w, c) a b ch f) ∧
    ((idxList3 prev_height prev_width filters).foldl
        (bwdStep Wf a_pad dY stride kernel_h kernel_w i)
        { da_pad := zero3, dW := dW0, db := db0 }).db =
      (fun f => db0 f +
        ∑ h in Finset.range prev_height, ∑ w in Finset.range prev_width,
          ∑ c in Finset.range filters, db_inc dY i (h, w, c) f) := by
  obtain ⟨h1, h2, h3⟩ := bwdFold_spec Wf a_pad dY stride kernel_h kernel_w i
    (idxList3 prev_height prev_width filters) { da_pad := zero3, dW := dW0, db := db0 }
  refine ⟨funext fun a => funext fun b => funext fun ch => ?_,
    funext fun a => funext fun b => funext fun ch => funext fun f => ?_,
    funext fun f => ?_⟩
  · rw [h1, sum_map_idxList3]
    simp [zero3]
  · rw [h2, sum_map_idxList3]
  · rw [h3, sum_map_idxList3]

theorem backward_fold_spec (A_pad dY : T4)
    (stride kernel_h kernel_w filters prev_height prev_width : Nat)
    (pad_h pad_w : Int) (learning_rate : ℚ) (W0 : T4) (b0 : Nat → ℚ) (m : Nat) :
    (backward_fold A_pad dY stride kernel_h kernel_w filters prev_height prev_width
        pad_h pad_w learning_rate W0 b0 m).dW =
      (fun a b ch f => ∑ i in Finset.range m,
        gW A_pad dY stride prev_height prev_width filters i a b ch f) ∧
    (backward_fold A_pad dY stride kernel_h kernel_w filters prev_height prev_width
        pad_h pad_w learning_rate W0 b0 m).db =
      (fun f => ∑ i in Finset.range m, gb dY prev_height prev_width filters i f) ∧
    (backward_fold A_pad dY stride kernel_h kernel_w filters prev_height prev_width
        pad_h pad_w learning_rate W0 b0 m).W =
      WAfter W0 learning_rate A_pad dY stride prev_height prev_width filters m ∧
    (backward_fold A_pad dY stride kernel_h kernel_w filters prev_height prev_width
        pad_h pad_w learning_rate W0 b0 m).b =
      bAfter b0 learning_rate dY prev_height prev_width filters m ∧
    (backward_fold A_pad dY stride kernel_h kernel_w filters prev_height prev_width
        pad_h pad_w learning_rate W0 b0 m).dA =
      (fun (j a b ch : Nat) =>
        if j < m then
          gDa (WAfter W0 learning_rate A_pad dY stride prev_height prev_width filters j)
            dY stride kernel_h kernel_w prev_height prev_width filters j
            (pad_h + (a : Int)).toNat (pad_w + (b : Int)).toNat ch
        else 0) := by
  induction m with
  | zero =>
    refine ⟨?_, ?_, ?_, ?_, ?_⟩
    · funext a b ch f
      simp [backward_fold, zero4]
    · funext f
      simp [backward_fold]
    · funext a b ch f
      simp [backward_fold, WAfter]
    · funext f
      simp [backward_fold, bAfter]
    · funext j a b ch
      simp [backward_fold, zero4]
  | succ m ih =>
    obtain ⟨hdW, hdb, hW, hb, hdA⟩ := ih
    have hstep : backward_fold A_pad dY stride kernel_h kernel_w filters prev_height prev_width
        pad_h pad_w learning_rate W0 b0 (m + 1) =
      sampleStep A_pad dY stride kernel_h kernel_w filters prev_height prev_width
        pad_h pad_w learning_rate
        (backward_fold A_pad dY stride kernel_h kernel_w filters prev_height prev_width
          pad_h pad_w learning_rate W0 b0 m) m := by
      rw [backward_fold, backward_fold, List.range_succ, List.foldl_append,
        List.foldl_cons, List.foldl_nil]
    obtain ⟨hda', hdW', hdb'⟩ := innerFold_spec
      (backward_fold A_pad dY stride kernel_h kernel_w filters prev_height prev_width
        pad_h pad_w learning_rate W0 b0 m).W
      (A_pad m) dY stride kernel_h kernel_w m prev_height prev_width filters
      (backward_fold A_pad dY stride kernel_h kernel_w filters prev_height prev_width
        pad_h pad_w learning_rate W0 b0 m).dW
      (backward_fold A_pad dY stride kernel_h kernel_w filters prev_height prev_width
        pad_h pad_w learning_rate W0 b0 m).db
    rw [hstep]
    simp only [sampleStep]
    refine ⟨?_, ?_, ?_, ?_, ?_⟩
    · rw [hdW', hdW]
      funext a b ch f
      rw [Finset.sum_range_succ]
      rfl
    · rw [hdb', hdb]
      funext f
      rw [Finset.sum_range_succ]
      rfl
    · rw [hdW', hdW, hW]
      funext a b ch f
      simp only [WAfter, gW, Finset.sum_range_succ]
      ring
    · rw [hdb', hdb, hb]
      funext f
      simp only [bAfter, gb, Finset.sum_range_succ]
      ring
    · funext j a b ch
      by_cases hj : j = m
      · subst hj
        rw [if_pos rfl, if_pos (Nat.lt_succ_self j), hda', hW]
        rfl
      · rw [if_neg hj, hdA]
        beta_reduce
        by_cases hjm : j < m
        · rw [if_pos hjm, if_pos (by omega : j < m + 1)]
        · rw [if_neg hjm, if_neg (by omega : ¬ j < m + 1)]

theorem backward_body_spec (s : ConvState) (dY : T4) (learning_rate : ℚ) :
    (backward_body s dY learning_rate).dW =
      (fun a b ch f => ∑ i in Finset.range s.samples,
        gW (utils.pad_inputs s.A s.prev_height s.prev_width s.pad_h s.pad_w) dY
          s.stride s.prev_height s.prev_width s.filters i a b ch f) ∧
    (backward_body s dY learning_rate).db =
      (fun f => ∑ i in Finset.range s.samples, gb dY s.prev_height s.prev_width s.filters i f) ∧
    (backward_body s dY learning_rate).W =
      WAfter s.W learning_rate (utils.pad_inputs s.A s.prev_height s.prev_width s.pad_h s.pad_w)
        dY s.stride s.prev_height s.prev_width s.filters s.samples ∧
    (backward_body s dY learning_rate).b =
      bAfter s.b learning_rate dY s.prev_height s.prev_width s.filters s.samples ∧
    (backward_body s dY learning_rate).dA =
      (fun (j a b ch : Nat) =>
        if j < s.samples then
          gDa (WAfter s.W learning_rate
              (utils.pad_inputs s.A s.prev_height s.prev_width s.pad_h s.pad_w) dY
              s.stride s.prev_height s.prev_width s.filters j)
            dY s.stride s.kernel_h s.kernel_w s.prev_height s.prev_width s.filters j
            (s.pad_h + (a : Int)).toNat (s.pad_w + (b : Int)).toNat ch
        else 0) ∧
    (backward_body s dY learning_rate).cropH = (if s.pad_h = 0 then 0 else s.prev_height) ∧
    (backward_body s dY learning_rate).cropW = (if s.pad_w = 0 then 0 else s.prev_width) := by
  obtain ⟨h1, h2, h3, h4, h5⟩ := backward_fold_spec
    (utils.pad_inputs s.A s.prev_height s.prev_width s.pad_h s.pad_w) dY
    s.stride s.kernel_h s.kernel_w s.filters s.prev_height s.prev_width
    s.pad_h s.pad_w learning_rate s.W s.b s.samples
  refine ⟨h1, h2, h3, h4, h5, ?_, ?_⟩
  · show (sliceStop s.pad_h ((s.prev_height : Int) + 2 * s.pad_h) - s.pad_h).toNat = _
    by_cases hp : s.pad_h = 0
    · simp [sliceStop, hp]
    · rw [sliceStop, if_neg hp, if_neg hp]
      have he : (s.prev_height : Int) + 2 * s.pad_h - s.pad_h - s.pad_h = (s.prev_height : Int) := by
        ring
      rw [he, Int.toNat_natCast]
  · show (sliceStop s.pad_w ((s.prev_width : Int) + 2 * s.pad_w) - s.pad_w).toNat = _
    by_cases hp : s.pad_w = 0
    · simp [sliceStop, hp]
    · rw [sliceStop, if_neg hp, if_neg hp]
      have he : (s.prev_width : Int) + 2 * s.pad_w - s.pad_w - s.pad_w = (s.prev_width : Int) := by
        ring
      rw [he, Int.toNat_natCast]

end Conv_layer

/-- Counterexample to claim C5 as stated: after a `'valid'`-padding
forward pass (pad 0) on a single 4×4 input, the crop
`da_pad[pad_h:-pad_h, pad_w:-pad_w, :]` taken at the end of
`backward`'s per-sample loop is the Python slice `[0:-0]`, which is
empty: its spatial extent is 0×0, not the unpadded 4×4 extent the claim
asserts. -/
theorem C5_crop_empty_counterexample :
    (Conv_layer.backward_body (Conv_layer.forward c1glorot c1state c1X 1 4 4 1).1 c5dY 1).cropH = 0 ∧
    (Conv_layer.backward_body (Conv_layer.forward c1glorot c1state c1X 1 4 4 1).1 c5dY 1).cropW = 0 ∧
    (Conv_layer.forward c1glorot c1state c1X 1 4 4 1).1.prev_height = 4 ∧
    (Conv_layer.forward c1glorot c1state c1X 1 4 4 1).1.prev_width = 4 ∧
    (0 : Nat) ≠ 4 := by
  refine ⟨by decide, by decide, rfl, rfl, by decide⟩

/-- Claim C5 (amended): the loop part of `Conv_layer.backward` (the code
after the failing `init_cache` lookup), starting from zero-initialized
`dA_pad`, `dW` and `db`, iterates for every sample over every original
(unpadded) spatial position `(h, w)` in range of the unpadded input's
height and width (not the output's), and for every filter `c` accumulates
`dA_pad[window] += W[:,:,:,c] * dY[sample,h,w,c]` (with `W` as already
updated by the preceding samples' in-loop updates),
`dW[:,:,:,c] += input_window * dY[sample,h,w,c]` and
`db[:,:,:,c] += dY[sample,h,w,c]`; it then crops `dA_pad` with the slice
`[pad_h:-pad_h, pad_w:-pad_w]` as the per-sample input gradient — a crop
whose spatial extent equals the unpadded extent when the pad amounts are
nonzero, but which is empty (extent 0) when a pad amount is 0, as under
`'valid'` padding. -/
theorem C5_backward_accumulation (s : ConvState) (dY : T4) (learning_rate : ℚ)
    (i a b ch : Nat) (hi : i < s.samples) :
    (Conv_layer.backward_body s dY learning_rate).dW =
      (fun a b ch f => ∑ j in Finset.range s.samples,
        Conv_layer.gW (utils.pad_inputs s.A s.prev_height s.prev_width s.pad_h s.pad_w) dY
          s.stride s.prev_height s.prev_width s.filters j a b ch f) ∧
    (Conv_layer.backward_body s dY learning_rate).db =
      (fun f => ∑ j in Finset.range s.samples,
        Conv_layer.gb dY s.prev_height s.prev_width s.filters j f) ∧
    (Conv_layer.backward_body s dY learning_rate).dA i a b ch =
      Conv_layer.gDa
        (Conv_layer.WAfter s.W learning_rate
          (utils.pad_inputs s.A s.prev_height s.prev_width s.pad_h s.pad_w) dY
          s.stride s.prev_height s.prev_width s.filters i)
        dY s.stride s.kernel_h s.kernel_w s.prev_height s.prev_width s.filters i
        (s.pad_h + (a : Int)).toNat (s.pad_w + (b : Int)).toNat ch ∧
    (Conv_layer.backward_body s dY learning_rate).cropH =
      (if s.pad_h = 0 then 0 else s.prev_height) ∧
    (Conv_layer.backward_body s dY learning_rate).cropW =
      (if s.pad_w = 0 then 0 else s.prev_width) := by
  obtain ⟨h1, h2, _, _, h5, h6, h7⟩ := Conv_layer.backward_body_spec s dY learning_rate
  refine ⟨h1, h2, ?_, h6, h7⟩
  rw [h5]
  beta_reduce
  rw [if_pos hi]

/-- Witness for C5 at sample 0 of a one-sample backward call. -/
theorem C5_backward_accumulation_witness :
    0 < c5state.samples ∧
    ((Conv_layer.backward_body c5state c5dY 1).dW =
      (fun a b ch f => ∑ j in Finset.range c5state.samples,
        Conv_layer.gW
          (utils.pad_inputs c5state.A c5state.prev_height c5state.prev_width
            c5state.pad_h c5state.pad_w) c5dY
          c5state.stride c5state.prev_height c5state.prev_width c5state.filters j a b ch f) ∧
    (Conv_layer.backward_body c5state c5dY 1).db =
      (fun f => ∑ j in Finset.range c5state.samples,
        Conv_layer.gb c5dY c5state.prev_height c5state.prev_width c5state.filters j f) ∧
    (Conv_layer.backward_body c5state c5dY 1).dA 0 0 0 0 =
      Conv_layer.gDa
        (Conv_layer.WAfter c5state.W 1
          (utils.pad_inputs c5state.A c5state.prev_height c5state.prev_width
            c5state.pad_h c5state.pad_w) c5dY
          c5state.stride c5state.prev_height c5state.prev_width c5state.filters 0)
        c5dY c5state.stride c5state.kernel_h c5state.kernel_w c5state.prev_height
        c5state.prev_width c5state.filters 0
        (c5state.pad_h + ((0 : Nat) : Int)).toNat (c5state.pad_w + ((0 : Nat) : Int)).toNat 0 ∧
    (Conv_layer.backward_body c5state c5dY 1).cropH =
      (if c5state.pad_h = 0 then 0 else c5state.prev_height) ∧
    (Conv_layer.backward_body c5state c5dY 1).cropW =
      (if c5state.pad_w = 0 then 0 else c5state.prev_width)) :=
  ⟨by decide, C5_backward_accumulation c5state c5dY 1 0 0 0 0 (by decide)⟩

/-- Claim C6: in `Conv_layer.backward`'s loop code, the parameter updates
`W -= lr*dW` and `b -= lr*db` are executed inside the per-sample loop, so
over a batch of `samples` samples `W` and `b` are each updated `samples`
times (the `k`-th update subtracting the gradient accumulated over
samples `0..k`, since `dW` and `db` keep accumulating across samples),
rather than once with the full-batch gradient: the final weights are
`WAfter`/`bAfter`, and on a concrete two-sample instance they equal `-4`,
whereas a single update with the fully-accumulated gradient would give
`-3`. -/
theorem C6_updates_inside_sample_loop :
    (∀ (s : ConvState) (dY : T4) (learning_rate : ℚ),
      (Conv_layer.backward_body s dY learning_rate).W =
        Conv_layer.WAfter s.W learning_rate
          (utils.pad_inputs s.A s.prev_height s.prev_width s.pad_h s.pad_w) dY
          s.stride s.prev_height s.prev_width s.filters s.samples ∧
      (Conv_layer.backward_body s dY learning_rate).b =
        Conv_layer.bAfter s.b learning_rate dY s.prev_height s.prev_width s.filters s.samples ∧
      (Conv_layer.backward_body s dY learning_rate).dW =
        (fun a b ch f => ∑ i in Finset.range s.samples,
          Conv_layer.gW (utils.pad_inputs s.A s.prev_height s.prev_width s.pad_h s.pad_w) dY
            s.stride s.prev_height s.prev_width s.filters i a b ch f)) ∧
    (Conv_layer.backward_body c6state c6dY 1).W 0 0 0 0 = -4 ∧
    c6state.W 0 0 0 0 - 1 * (∑ i in Finset.range c6state.samples,
      Conv_layer.gW
        (utils.pad_inputs c6state.A c6state.prev_height c6state.prev_width
          c6state.pad_h c6state.pad_w) c6dY
        c6state.stride c6state.prev_height c6state.prev_width c6state.filters i 0 0 0 0) = -3 ∧
    ((-4 : ℚ) ≠ -3) := by
  refine ⟨fun s dY learning_rate => ?_, ?_, ?_, by norm_num⟩
  · obtain ⟨h1, _, h3, h4, _, _, _⟩ := Conv_layer.backward_body_spec s dY learning_rate
    exact ⟨h3, h4, h1⟩
  · rw [(Conv_layer.backward_body_spec c6state c6dY 1).2.2.1]
    norm_num [Conv_layer.WAfter, Conv_layer.gW, Conv_layer.dW_inc, utils.pad_inputs,
      c6state, c6dY, zero4, Finset.sum_range_succ, Int.toNat]
  · norm_num [Conv_layer.gW, Conv_layer.dW_inc, utils.pad_inputs,
      c6state, c6dY, zero4, Finset.sum_range_succ, Int.toNat]

/-- Claim C4's failing input, evaluated on the embedding: for a
`Conv_layer` that ran `forward` on a 1×4×4×1 input with a 2×2 kernel
under `'valid'` padding (`pad_h = pad_w = 0`), `backward` does not return
a tensor shaped like the cached input at all — it stops with
`AttributeError` on the missing `init_cache` — and even the crop its
(unreachable) loop code would assign into `dA[i]`, the Python slice
`da_pad[0:-0, 0:-0, :]`, has spatial extent 0×0 rather than the cached
input's 4×4. -/
theorem C4_conv_backward_shape_bug :
    Conv_layer.backward (Conv_layer.forward c1glorot c1state c1X 1 4 4 1).1 c4dY 1 =
      Except.error (PyErr.attributeError "Conv_layer" "init_cache") ∧
    (Conv_layer.backward_body (Conv_layer.forward c1glorot c1state c1X 1 4 4 1).1 c4dY 1).cropH = 0 ∧
    (Conv_layer.backward_body (Conv_layer.forward c1glorot c1state c1X 1 4 4 1).1 c4dY 1).cropW = 0 ∧
    (Conv_layer.forward c1glorot c1state c1X 1 4 4 1).1.prev_height = 4 ∧
    (Conv_layer.forward c1glorot c1state c1X 1 4 4 1).1.prev_width = 4 ∧
    (0 : Nat) ≠ 4 :=
  ⟨rfl, by decide, by decide, rfl, rfl, by decide⟩

/-- Claim C8: after `forward` cached input `X`, `FC.backward(dY, lr)`
with batch size `m` returns the input gradient `dY·Wᵗ` computed from the
pre-update weights, and updates the parameters in place to
`W - lr·(Xᵗ·dY / m)` and `b - lr·(sum of dY over the batch axis / m)`,
with the stored sizes unchanged. -/
theorem C8_fc_backward (s : FCState) (dY : M2) (m : Nat) (learning_rate : ℚ) (i j k : Nat) :
    (FC.backward s dY m learning_rate).2 i j =
      (∑ t in Finset.range s.output_size, dY i t * s.weights j t) ∧
    (FC.backward s dY m learning_rate).1.weights j k =
      s.weights j k - learning_rate * ((∑ t in Finset.range m, s.input t j * dY t k) / m) ∧
    (FC.backward s dY m learning_rate).1.bias j =
      s.bias j - learning_rate * ((∑ t in Finset.range m, dY t j) / m) ∧
    (FC.backward s dY m learning_rate).1.input_size = s.input_size ∧
    (FC.backward s dY m learning_rate).1.output_size = s.output_size :=
  ⟨rfl, rfl, rfl, rfl, rfl⟩

theorem sum_range_mul_div (m r : Nat) (hr : 0 < r) (g : Nat → ℚ) :
    ∑ t in Finset.range (m * r), g (t / r) = r * ∑ q in Finset.range m, g q := by
  induction m with
  | zero => simp
  | succ m ih =>
    have hmr : (m + 1) * r = m * r + r := by ring
    rw [hmr, Finset.sum_range_add, ih]
    have htail : ∀ t ∈ Finset.range r, g ((m * r + t) / r) = g m := by
      intro t ht
      rw [Finset.mem_range] at ht
      congr 1
      rw [mul_comm m r, Nat.mul_add_div hr, Nat.div_eq_of_lt ht, Nat.add_zero]
    rw [Finset.sum_congr rfl htail, Finset.sum_const, Finset.card_range,
      Finset.sum_range_succ]
    rw [nsmul_eq_mul]
    ring

/-- Claim C9: for `FC` with fixed weights and bias, replicating every row
of the cached input `X` and of `dY` the same number `r > 0` of times
(batch `m` becomes batch `m * r`) leaves the computed `dW` and `dB` —
and therefore the parameter values after the update — unchanged, because
the gradients are averaged over the batch size rather than summed. -/
theorem C9_fc_batch_duplication (s : FCState) (X dY : M2) (m r : Nat) (hr : 0 < r)
    (learning_rate : ℚ) (j k : Nat) :
    (∑ t in Finset.range (m * r), dupRows X r t j * dupRows dY r t k) / ((m * r : Nat) : ℚ) =
      (∑ t in Finset.range m, X t j * dY t k) / (m : ℚ) ∧
    (∑ t in Finset.range (m * r), dupRows dY r t j) / ((m * r : Nat) : ℚ) =
      (∑ t in Finset.range m, dY t j) / (m : ℚ) ∧
    (FC.backward { s with input := dupRows X r } (dupRows dY r) (m * r) learning_rate).1.weights j k =
      (FC.backward { s with input := X } dY m learning_rate).1.weights j k ∧
    (FC.backward { s with input := dupRows X r } (dupRows dY r) (m * r) learning_rate).1.bias j =
      (FC.backward { s with input := X } dY m learning_rate).1.bias j := by
  have hr' : ((r : ℚ)) ≠ 0 := Nat.cast_ne_zero.2 hr.ne'
  have hcast : ((m * r : Nat) : ℚ) = (r : ℚ) * (m : ℚ) := by push_cast; ring
  have h1 := sum_range_mul_div m r hr (fun q => X q j * dY q k)
  beta_reduce at h1
  have h2 := sum_range_mul_div m r hr (fun q => dY q j)
  beta_reduce at h2
  have hdW : (∑ t in Finset.range (m * r), dupRows X r t j * dupRows dY r t k) /
      ((m * r : Nat) : ℚ) = (∑ t in Finset.range m, X t j * dY t k) / (m : ℚ) := by
    simp only [dupRows]
    rw [h1, hcast, mul_div_mul_left _ _ hr']
  have hdB : (∑ t in Finset.range (m * r), dupRows dY r t j) / ((m * r : Nat) : ℚ) =
      (∑ t in Finset.range m, dY t j) / (m : ℚ) := by
    simp only [dupRows]
    rw [h2, hcast, mul_div_mul_left _ _ hr']
  refine ⟨hdW, hdB, ?_, ?_⟩
  · show s.weights j k - learning_rate * (FC.dot (FC.transpose (dupRows X r)) (dupRows dY r)
        (m * r) j k / ((m * r : Nat) : ℚ)) = s.weights j k - learning_rate *
        (FC.dot (FC.transpose X) dY m j k / (m : ℚ))
    simp only [FC.dot, FC.transpose]
    rw [hdW]
  · show s.bias j - learning_rate * ((∑ i in Finset.range (m * r), dupRows dY r i j) /
        ((m * r : Nat) : ℚ)) = s.bias j - learning_rate *
        ((∑ i in Finset.range m, dY i j) / (m : ℚ))
    rw [hdB]

/-- Witness for C9 at the spec's concrete test: a batch of 1 sample
versus that sample duplicated 4 times. -/
theorem C9_fc_batch_duplication_witness :
    (0 : Nat) < 4 ∧
    ((∑ t in Finset.range (1 * 4), dupRows c9X 4 t 0 * dupRows c9dY 4 t 0) / ((1 * 4 : Nat) : ℚ) =
      (∑ t in Finset.range 1, c9X t 0 * c9dY t 0) / ((1 : Nat) : ℚ) ∧
    (∑ t in Finset.range (1 * 4), dupRows c9dY 4 t 0) / ((1 * 4 : Nat) : ℚ) =
      (∑ t in Finset.range 1, c9dY t 0) / ((1 : Nat) : ℚ) ∧
    (FC.backward { c9state with input := dupRows c9X 4 } (dupRows c9dY 4) (1 * 4) 1).1.weights 0 0 =
      (FC.backward { c9state with input := c9X } c9dY 1 1).1.weights 0 0 ∧
    (FC.backward { c9state with input := dupRows c9X 4 } (dupRows c9dY 4) (1 * 4) 1).1.bias 0 =
      (FC.backward { c9state with input := c9X } c9dY 1 1).1.bias 0) :=
  ⟨by decide, C9_fc_batch_duplication c9state c9X c9dY 1 4 (by decide) 1 0 0⟩

/-- Claim C10: for every multi-dimensional input `X` (shape
`n :: rest`), `Flatten.forward` returns `X` reshaped to
`(batch, product-of-remaining-dimensions)` with no numeric change, and
the pair is shape-inverse: `backward (forward X)` has exactly `X`'s
shape (and, indeed, `X`'s data). -/
theorem C10_flatten_shape_inverse (st : FlattenState) (X : NDTensor) (n : Nat)
    (rest : List Nat) (learning_rate : ℚ) (hX : X.shape = n :: rest) :
    (Flatten.forward st X).2.shape = [n, rest.prod] ∧
    (Flatten.forward st X).2.data = X.data ∧
    (Flatten.backward (Flatten.forward st X).1 (Flatten.forward st X).2 learning_rate).shape =
      X.shape ∧
    (Flatten.backward (Flatten.forward st X).1 (Flatten.forward st X).2 learning_rate).data =
      X.data := by
  refine ⟨?_, rfl, rfl, rfl⟩
  simp [Flatten.forward, reshape, hX]

/-- Witness for C10 on the concrete 2×3×4 input: forward flattens to
2×12 and backward restores the 2×3×4 shape. -/
theorem C10_flatten_shape_inverse_witness :
    c10X.shape = 2 :: [3, 4] ∧
    ((Flatten.forward c10st c10X).2.shape = [2, List.prod [3, 4]] ∧
    (Flatten.forward c10st c10X).2.data = c10X.data ∧
    (Flatten.backward (Flatten.forward c10st c10X).1 (Flatten.forward c10st c10X).2 1).shape =
      c10X.shape ∧
    (Flatten.backward (Flatten.forward c10st c10X).1 (Flatten.forward c10st c10X).2 1).data =
      c10X.data) :=
  ⟨rfl, C10_flatten_shape_inverse c10st c10X 2 [3, 4] 1 rfl⟩
